import Mathlib

/-!
Verification development for the compose-exec library: a shallow embedding of
the pure data transformations and of the lifecycle-controller control flow of
the Go source, together with theorems settling the specified properties.

Modelling conventions:
- Go strings are Lean `String`; byte-level operations are modelled on `.data`
  (all inputs of interest are ASCII, where the two coincide).
- Go `nil` values are `Option.none`; Go `error` results are `Option String`
  (the error message) or `Except String`.
- Engine interactions are modelled by explicit traces of engine-call events,
  so "performs no engine call" is `trace = []`.
-/

/-! ## String helpers (src/compose/util.go, strings.TrimSpace) -/

/-- Model of Go's unicode.IsSpace for the characters that can actually occur
in the resource names handled here (ASCII whitespace plus NEL and NBSP). -/
def goIsSpace (c : Char) : Bool :=
  c = ' ' || c = '\t' || c = '\n' || c.val = 11 || c.val = 12 || c = '\r' ||
    c.val = 0x85 || c.val = 0xA0

/-- Model of strings.TrimSpace: drop leading and trailing whitespace. -/
def trimSpace (s : String) : String :=
  String.mk (((s.data.dropWhile goIsSpace).reverse.dropWhile goIsSpace).reverse)

/-- splitEnvChars finds the first '=' and splits there
(model of strings.IndexByte in splitEnv, src/unnamed/part_012 lines 10-16). -/
def splitEnvChars : List Char → Option (List Char × List Char)
  | [] => none
  | c :: cs =>
    if c = '=' then some ([], cs)
    else
      match splitEnvChars cs with
      | none => none
      | some (k, v) => some (c :: k, v)

/-- splitEnv splits "k=v" at the first '='; a string without '=' yields none
(src/unnamed/part_012, splitEnv). -/
def splitEnv (kv : String) : Option (String × String) :=
  match splitEnvChars kv.data with
  | none => none
  | some (k, v) => some (String.mk k, String.mk v)

/-! ## Environment merge (src/unnamed/part_012, mergeEnv) -/

/-- envValue from src/unnamed/part_012: a value plus whether the entry carried
a value at all (key-only entries have hasValue = false). -/
structure EnvValue where
  value : String
  hasValue : Bool
deriving Repr, DecidableEq

/-- The (key, envValue) pair the addKV closure computes for one entry:
a split "k=v" gives (k, v with value), an unsplittable entry kv gives
(kv, key-only). -/
def envKeyVal (kv : String) : String × EnvValue :=
  match splitEnv kv with
  | some (k, v) => (k, ⟨v, true⟩)
  | none => (kv, ⟨"", false⟩)

/-- The key under which mergeEnv files an entry. -/
def keyOf (kv : String) : String := (envKeyVal kv).1

/-- Insert a key at the end of the order list unless already seen
(the order/seen bookkeeping of addKV). -/
def ordIns (order : List String) (k : String) : List String :=
  if k ∈ order then order else order ++ [k]

/-- Go map write m[k] = v, modelled on an association list. -/
def setEnv (m : List (String × EnvValue)) (k : String) (v : EnvValue) :
    List (String × EnvValue) :=
  match m with
  | [] => [(k, v)]
  | (k', v') :: rest => if k' = k then (k, v) :: rest else (k', v') :: setEnv rest k v

/-- Go map read m[k], modelled on an association list. -/
def lookupEnv (m : List (String × EnvValue)) (k : String) : Option EnvValue :=
  match m with
  | [] => none
  | (k', v') :: rest => if k' = k then some v' else lookupEnv rest k

/-- The mutable state of mergeEnv: the value map and the first-seen key order. -/
structure MergeState where
  m : List (String × EnvValue)
  order : List String

/-- The addKV closure of mergeEnv (src/unnamed/part_012 lines 28-43):
split the entry, fall back to a key-only record, drop empty keys, record
first-seen order, overwrite the value map. -/
def addKV (st : MergeState) (kv : String) : MergeState :=
  let p := envKeyVal kv
  if p.1 = "" then st
  else { m := setEnv st.m p.1 p.2, order := ordIns st.order p.1 }

/-- mergeEnv (src/unnamed/part_012 lines 23-62): fold addKV over base then
add, then render each key in first-seen order from the final value map. -/
def mergeEnv (base add : List String) : List String :=
  let st := (base ++ add).foldl addKV ⟨[], []⟩
  st.order.map (fun k =>
    match lookupEnv st.m k with
    | some ev => if ev.hasValue then k ++ "=" ++ ev.value else k
    | none => k)

/-! ### Specification-side formulation of the merge, from the claim's words:
one entry per distinct key in first-seen order, rendered from the last
occurrence of that key (so an override value replaces a base value, and a
later key-only entry turns a valued key back into key-only). -/

/-- Keep the first occurrence of each element, dropping later duplicates. -/
def dedupFirstSeen : List String → List String
  | [] => []
  | k :: ks => k :: dedupFirstSeen (ks.filter (fun x => x ≠ k))
termination_by l => l.length
decreasing_by
  simp only [gt_iff_lt]
  exact Nat.lt_succ_of_le (List.length_filter_le _ _)

/-- The last entry of the list filed under key k, if any. -/
def lastEntryFor (l : List String) (k : String) : Option String :=
  (l.filter (fun kv => keyOf kv = k)).getLast?

/-- Render the merged entry for key k from its last occurrence. -/
def renderEntry (l : List String) (k : String) : String :=
  match lastEntryFor l k with
  | some kv =>
    let p := envKeyVal kv
    if p.2.hasValue then p.1 ++ "=" ++ p.2.value else p.1
  | none => k

/-- The claim's description of the merge as a function: distinct keys in
first-seen order (empty keys dropped), each rendered from its last
occurrence in base ++ override. -/
def mergeEnvSpec (base add : List String) : List String :=
  let l := base ++ add
  (dedupFirstSeen ((l.map keyOf).filter (fun k => k ≠ ""))).map (renderEntry l)

/-! ### Lemmas relating mergeEnv to mergeEnvSpec -/

theorem lookupEnv_setEnv (m : List (String × EnvValue)) (k k' : String) (v : EnvValue) :
    lookupEnv (setEnv m k v) k' = if k = k' then some v else lookupEnv m k' := by
  induction m with
  | nil =>
    by_cases h : k = k' <;> simp [setEnv, lookupEnv, h]
  | cons hd tl ih =>
    obtain ⟨k₀, v₀⟩ := hd
    by_cases h0 : k₀ = k
    · subst h0
      by_cases h : k₀ = k' <;> simp [setEnv, lookupEnv, h]
    · by_cases h : k₀ = k'
      · subst h
        have hkk : ¬(k = k₀) := fun h => h0 h.symm
        simp [setEnv, lookupEnv, h0, hkk]
      · simp [setEnv, lookupEnv, h0, h, ih]

theorem mem_dedupFirstSeen (l : List String) (k : String) :
    k ∈ dedupFirstSeen l ↔ k ∈ l := by
  induction l using dedupFirstSeen.induct with
  | case1 => simp [dedupFirstSeen]
  | case2 x xs ih =>
    rw [dedupFirstSeen]
    by_cases hxk : k = x
    · subst hxk; simp
    · constructor
      · intro h
        rcases List.mem_cons.mp h with h | h
        · exact absurd h hxk
        · exact List.mem_cons.mpr (Or.inr (List.mem_filter.mp (ih.mp h)).1)
      · intro h
        rcases List.mem_cons.mp h with h | h
        · exact absurd h hxk
        · refine List.mem_cons.mpr (Or.inr (ih.mpr (List.mem_filter.mpr ⟨h, ?_⟩)))
          simpa using hxk

theorem dedupFirstSeen_concat (l : List String) (k : String) :
    dedupFirstSeen (l ++ [k]) = ordIns (dedupFirstSeen l) k := by
  induction l using dedupFirstSeen.induct with
  | case1 =>
    rw [List.nil_append, dedupFirstSeen, dedupFirstSeen]
    simp [dedupFirstSeen, ordIns]
  | case2 x xs ih =>
    rw [List.cons_append, dedupFirstSeen, List.filter_append]
    conv_rhs => rw [dedupFirstSeen]
    by_cases hkx : k = x
    · subst hkx
      have hfk : List.filter (fun y => y ≠ k) [k] = [] := by simp
      rw [hfk, List.append_nil]
      unfold ordIns
      rw [if_pos (List.mem_cons_self _ _)]
    · have hfk : List.filter (fun y => y ≠ x) [k] = [k] := by simp [hkx]
      rw [hfk, ih]
      unfold ordIns
      by_cases hk : k ∈ dedupFirstSeen (List.filter (fun y => y ≠ x) xs)
      · rw [if_pos hk, if_pos (List.mem_cons_of_mem x hk)]
      · have hk' : k ∉ x :: dedupFirstSeen (List.filter (fun y => y ≠ x) xs) := by
          simp only [List.mem_cons, not_or]
          exact ⟨hkx, hk⟩
        rw [if_neg hk, if_neg hk', List.cons_append]

/-- The state reached by folding addKV over a list, from the empty state. -/
def foldSt (l : List String) : MergeState := l.foldl addKV ⟨[], []⟩

theorem foldSt_concat (l : List String) (kv : String) :
    foldSt (l ++ [kv]) = addKV (foldSt l) kv := by
  simp [foldSt, List.foldl_append]

theorem foldSt_order (l : List String) :
    (foldSt l).order = dedupFirstSeen ((l.map keyOf).filter (fun k => k ≠ "")) := by
  induction l using List.reverseRecOn with
  | nil => simp [foldSt, dedupFirstSeen]
  | append_singleton l kv ih =>
    rw [foldSt_concat]
    simp only [addKV]
    rw [List.map_append, List.filter_append]
    by_cases h1 : (envKeyVal kv).1 = ""
    · rw [if_pos h1]
      have hfil : List.filter (fun k => k ≠ "") (List.map keyOf [kv]) = [] := by
        simp [keyOf, h1]
      rw [hfil, List.append_nil, ih]
    · rw [if_neg h1]
      have hfil : List.filter (fun k => k ≠ "") (List.map keyOf [kv]) = [keyOf kv] := by
        simp [keyOf, h1]
      rw [hfil, dedupFirstSeen_concat, ← ih]
      rfl

theorem foldSt_lookup (l : List String) (k : String) (hk : k ≠ "") :
    lookupEnv (foldSt l).m k = (lastEntryFor l k).map (fun kv => (envKeyVal kv).2) := by
  induction l using List.reverseRecOn with
  | nil => simp [foldSt, lookupEnv, lastEntryFor]
  | append_singleton l kv ih =>
    rw [foldSt_concat]
    simp only [addKV]
    by_cases h1 : (envKeyVal kv).1 = ""
    · rw [if_pos h1]
      have hkv : ¬(keyOf kv = k) := by
        rw [keyOf, h1]; exact fun h => hk h.symm
      have hfil : List.filter (fun kv' => keyOf kv' = k) [kv] = [] := by
        simp [hkv]
      have hlast : lastEntryFor (l ++ [kv]) k = lastEntryFor l k := by
        unfold lastEntryFor
        rw [List.filter_append, hfil, List.append_nil]
      rw [hlast]; exact ih
    · rw [if_neg h1]
      show lookupEnv (setEnv (foldSt l).m (envKeyVal kv).1 (envKeyVal kv).2) k = _
      rw [lookupEnv_setEnv]
      by_cases hkv : (envKeyVal kv).1 = k
      · rw [if_pos hkv]
        have hfil : List.filter (fun kv' => keyOf kv' = k) [kv] = [kv] := by
          simp [keyOf, hkv]
        have hlast : lastEntryFor (l ++ [kv]) k = some kv := by
          unfold lastEntryFor
          rw [List.filter_append, hfil, List.getLast?_concat]
        rw [hlast]; rfl
      · rw [if_neg hkv]
        have hfil : List.filter (fun kv' => keyOf kv' = k) [kv] = [] := by
          simp [keyOf, hkv]
        have hlast : lastEntryFor (l ++ [kv]) k = lastEntryFor l k := by
          unfold lastEntryFor
          rw [List.filter_append, hfil, List.append_nil]
        rw [hlast]; exact ih

theorem splitEnvChars_join (cs : List Char) (k v : List Char)
    (h : splitEnvChars cs = some (k, v)) : cs = k ++ '=' :: v := by
  induction cs generalizing k v with
  | nil => simp [splitEnvChars] at h
  | cons c rest ih =>
    by_cases hc : c = '='
    · subst hc
      simp [splitEnvChars] at h
      obtain ⟨hk, hv⟩ := h
      subst hk; subst hv; rfl
    · rw [splitEnvChars, if_neg hc] at h
      cases hrec : splitEnvChars rest with
      | none => rw [hrec] at h; simp at h
      | some p =>
        obtain ⟨k', v'⟩ := p
        rw [hrec] at h
        simp at h
        obtain ⟨hk, hv⟩ := h
        subst hv
        rw [← hk]
        simpa using ih k' v' hrec

/-- Rebuilding a split entry gives back the entry: k ++ "=" ++ v = kv. -/
theorem splitEnv_join (kv k v : String) (h : splitEnv kv = some (k, v)) :
    k ++ "=" ++ v = kv := by
  unfold splitEnv at h
  cases hc : splitEnvChars kv.data with
  | none => rw [hc] at h; simp at h
  | some p =>
    obtain ⟨kc, vc⟩ := p
    rw [hc] at h
    simp at h
    obtain ⟨hk, hv⟩ := h
    have hjoin := splitEnvChars_join kv.data kc vc hc
    subst hk; subst hv
    apply String.ext
    simpa [String.data_append] using hjoin.symm

/-- Claim C2: mergeEnv produces one entry per distinct key in first-seen
order, an override value replaces a base value, key-only entries are
preserved as key-only unless the other list supplies a value (and a later
key-only entry turns a valued key back into key-only) — i.e. mergeEnv
coincides with the claim's merge description mergeEnvSpec on all inputs —
and in particular mergeEnv ["A","B=2"] ["A=1","C"] = ["A=1","B=2","C"]. -/
theorem claim_C2_mergeEnv (base add : List String) :
    mergeEnv base add = mergeEnvSpec base add ∧
    mergeEnv ["A", "B=2"] ["A=1", "C"] = ["A=1", "B=2", "C"] := by
  constructor
  · have hfold : ∀ l : List String,
        List.foldl addKV (⟨[], []⟩ : MergeState) l = foldSt l := fun _ => rfl
    simp only [mergeEnv, mergeEnvSpec, hfold]
    rw [foldSt_order]
    apply List.map_congr_left
    intro k hkmem
    have hk : k ≠ "" := by
      have hmem := (mem_dedupFirstSeen _ k).mp hkmem
      simp only [List.mem_filter, decide_eq_true_eq, ne_eq] at hmem
      exact hmem.2
    rw [foldSt_lookup (base ++ add) k hk]
    unfold renderEntry
    cases hle : lastEntryFor (base ++ add) k with
    | none => simp
    | some kv =>
      have hkey : keyOf kv = k := by
        unfold lastEntryFor at hle
        have hmemo : kv ∈ (List.filter (fun kv' => keyOf kv' = k)
            (base ++ add)).getLast? := by
          rw [hle]; rfl
        obtain ⟨hne, heq⟩ := List.mem_getLast?_eq_getLast hmemo
        have hmem : kv ∈ List.filter (fun kv' => keyOf kv' = k) (base ++ add) := by
          rw [heq]; exact List.getLast_mem hne
        have hmem' := List.mem_filter.mp hmem
        simpa using hmem'.2
      have hfst : (envKeyVal kv).1 = k := hkey
      rw [Option.map_some']
      show (if (envKeyVal kv).2.hasValue = true
          then k ++ "=" ++ (envKeyVal kv).2.value else k) =
        (if (envKeyVal kv).2.hasValue = true
          then (envKeyVal kv).1 ++ "=" ++ (envKeyVal kv).2.value
          else (envKeyVal kv).1)
      rw [hfst]
  · decide

namespace ResolveNames

/-! ## Resource name resolution (src/compose/docker_client.go lines 329-347,
440-449) -/

/-- The fields of a top-level volume (or network) declaration that name
resolution consults: the explicit name override and the external flag. -/
structure VolumeCfg where
  name : String
  external : Bool
deriving Repr, DecidableEq

/-- Association-list lookup modelling the projectVolumes map access. -/
def lookupCfg : List (String × VolumeCfg) → String → Option VolumeCfg
  | [], _ => none
  | (k, c) :: rest, key => if k = key then some c else lookupCfg rest key

/-- resolveVolumeName (docker_client.go lines 340-347): qualify the key with
the project name, or return the key alone when the project name is empty;
both inputs are whitespace-trimmed. -/
def resolveVolumeName (projectName volumeName : String) : String :=
  let projectName := trimSpace projectName
  let volumeName := trimSpace volumeName
  if projectName = "" then volumeName
  else projectName ++ "_" ++ volumeName

/-- resolveResourceName (docker_client.go lines 329-338): a non-empty trimmed
explicit name wins, then the external flag short-circuits to the trimmed key,
else the key is project-qualified. -/
def resolveResourceName (projectName key explicitName : String) (external : Bool) :
    String :=
  let key := trimSpace key
  let name := trimSpace explicitName
  if name ≠ "" then name
  else if external then key
  else resolveVolumeName projectName key

/-- resolveVolumeSource (docker_client.go lines 440-449): a declared top-level
volume resolves through resolveResourceName, an undeclared one is
project-qualified. -/
def resolveVolumeSource (projectName volumeSource : String)
    (projectVolumes : List (String × VolumeCfg)) : String :=
  let volumeSource := trimSpace volumeSource
  if volumeSource = "" then ""
  else
    match lookupCfg projectVolumes volumeSource with
    | some cfg => resolveResourceName projectName volumeSource cfg.name cfg.external
    | none => resolveVolumeName projectName volumeSource

end ResolveNames

/-- Claim C5 counterexample: the claim says a non-empty explicit name is
returned unmodified, but the resolver trims whitespace: the non-empty
explicit name " explicit " resolves to "explicit", not to itself. -/
theorem claim_C5_counterexample :
    (" explicit " : String) ≠ "" ∧
    ResolveNames.resolveResourceName "myproj" "db_data" " explicit " false ≠
      " explicit " := by
  constructor
  · decide
  · decide

/-- Claim C5 (amended): for inputs without leading or trailing whitespace
(the resolver trims all inputs first), resolution returns a non-empty
explicit name unmodified; otherwise an external resource resolves to the raw
key; otherwise the result is projectName ++ "_" ++ key, or just the key when
the project name is empty. In particular volume source "db_data" under
project "myproj" resolves to "myproj_db_data" unless an explicit name or
external flag is declared, in which case that (trimmed) name or key is used. -/
theorem claim_C5_resolveResourceName (pn key en : String) (ext : Bool)
    (hpn : trimSpace pn = pn) (hk : trimSpace key = key) (hen : trimSpace en = en) :
    (en ≠ "" → ResolveNames.resolveResourceName pn key en ext = en) ∧
    (en = "" → ext = true → ResolveNames.resolveResourceName pn key en ext = key) ∧
    (en = "" → ext = false → pn = "" →
      ResolveNames.resolveResourceName pn key en ext = key) ∧
    (en = "" → ext = false → pn ≠ "" →
      ResolveNames.resolveResourceName pn key en ext = pn ++ "_" ++ key) ∧
    ResolveNames.resolveVolumeSource "myproj" "db_data" [] = "myproj_db_data" ∧
    ResolveNames.resolveVolumeSource "myproj" "db_data"
      [("db_data", ⟨"customname", false⟩)] = "customname" ∧
    ResolveNames.resolveVolumeSource "myproj" "db_data"
      [("db_data", ⟨"", true⟩)] = "db_data" := by
  refine ⟨?_, ?_, ?_, ?_, by decide, by decide, by decide⟩
  · intro hne
    simp [ResolveNames.resolveResourceName, hen, hne]
  · intro he hx
    subst he; subst hx
    simp [ResolveNames.resolveResourceName, hen, hk]
  · intro he hx hp
    subst he; subst hx; subst hp
    simp [ResolveNames.resolveResourceName, ResolveNames.resolveVolumeName,
      hen, hk, hpn]
  · intro he hx hp
    subst he; subst hx
    simp [ResolveNames.resolveResourceName, ResolveNames.resolveVolumeName,
      hen, hk, hpn, hp]

/-- Claim C5 witness: concrete instantiation of the amended resolution
theorem at project "myproj", key "db_data", no explicit name, not external. -/
theorem claim_C5_resolveResourceName_witness :
    ResolveNames.resolveResourceName "myproj" "db_data" "" false =
      "myproj" ++ "_" ++ "db_data" :=
  (claim_C5_resolveResourceName "myproj" "db_data" "" false
    (by decide) (by decide) (by decide)).2.2.2.1 rfl rfl (by decide)

/-! ## Stdin enablement (src/compose/cmd_stdin.go, src/unnamed/part_010
lines 35-44) -/

/-- The shapes of io.Reader values stdinEnabled distinguishes: a
*strings.Reader with its unread length, or any other reader. A nil reader is
Option.none at the use sites. -/
inductive GoReader
  | stringsReader (len : Nat)
  | otherReader
deriving Repr, DecidableEq

/-- stdinEnabled (cmd_stdin.go lines 8-16): nil is disabled, an exhausted
*strings.Reader (Len() == 0) is disabled, everything else is enabled. -/
def stdinEnabled (r : Option GoReader) : Bool :=
  match r with
  | none => false
  | some (.stringsReader len) => if len = 0 then false else true
  | some .otherReader => true

/-- The engine-facing container.Config fields assembled by containerConfigs
(src/unnamed/part_010 lines 35-44) that this development reasons about. -/
structure ContainerConfigM where
  image : String
  workingDir : String
  env : List String
  tty : Bool
  openStdin : Bool
  stdinOnce : Bool
deriving Repr, DecidableEq

/-- The container.Config assembly of containerConfigs (part_010 lines 30-44):
working directory override, merged environment, Tty false, and the
stdin flags driven by stdinEnabled. -/
def containerConfigCore (svcImage svcWorkingDir cmdWorkingDir : String)
    (svcEnv cmdEnv : List String) (stdin : Option GoReader) : ContainerConfigM :=
  let workingDir := if cmdWorkingDir ≠ "" then cmdWorkingDir else svcWorkingDir
  { image := svcImage
    workingDir := workingDir
    env := mergeEnv svcEnv cmdEnv
    tty := false
    openStdin := stdinEnabled stdin
    stdinOnce := stdinEnabled stdin }

/-- Claim C10: the engine-facing configuration sets OpenStdin and StdinOnce
to true exactly when the input source is enabled, where a nil reader and an
empty or exhausted *strings.Reader both count as disabled, and any other
non-nil reader (or a strings.Reader with bytes left) counts as enabled. -/
theorem claim_C10_stdin_flags (si wd cw : String) (se ce : List String)
    (r : Option GoReader) :
    ((containerConfigCore si wd cw se ce r).openStdin = true ↔ stdinEnabled r = true) ∧
    ((containerConfigCore si wd cw se ce r).stdinOnce = true ↔ stdinEnabled r = true) ∧
    stdinEnabled none = false ∧
    stdinEnabled (some (GoReader.stringsReader 0)) = false ∧
    (∀ n, n ≠ 0 → stdinEnabled (some (GoReader.stringsReader n)) = true) ∧
    stdinEnabled (some GoReader.otherReader) = true := by
  refine ⟨Iff.rfl, Iff.rfl, rfl, rfl, ?_, rfl⟩
  intro n hn
  simp [stdinEnabled, hn]

/-- Claim C10 witness: the flags at a concrete configuration with an
exhausted strings.Reader, plus the enabled case at length 3. -/
theorem claim_C10_stdin_flags_witness :
    ((containerConfigCore "alpine" "" "" [] []
        (some (GoReader.stringsReader 0))).openStdin = true ↔
      stdinEnabled (some (GoReader.stringsReader 0)) = true) ∧
    stdinEnabled (some (GoReader.stringsReader 3)) = true := by
  have h := claim_C10_stdin_flags "alpine" "" "" [] [] (some (GoReader.stringsReader 0))
  exact ⟨h.1, h.2.2.2.2.1 3 (by decide)⟩

/-! ## Engine-call traces

Engine interactions are recorded as explicit traces, so that "no engine call
is issued" is the statement trace = []. -/

/-- The engine (Docker API) calls the lifecycle controller can issue. -/
inductive EngineCall
  | imagePull
  | networkList (name : String)
  | networkCreate (name : String)
  | volumeCreate (name : String)
  | containerCreate
  | containerAttach
  | containerStart
  | containerWaitBegin
  | containerInspect
  | containerStop
  | containerKill
  | containerRemove
deriving Repr, DecidableEq

/-- stopAndKill (src/compose/cmd_docker.go lines 69-81): a stop attempt,
escalating to kill when the stop fails. -/
def stopAndKill (stopFails : Bool) : List EngineCall :=
  if stopFails then [.containerStop, .containerKill] else [.containerStop]

/-! ## Inspected container state (src/unnamed/part_009) -/

/-- The health sub-state of an inspected container (State.Health). -/
structure HealthStateM where
  status : String
deriving Repr, DecidableEq

/-- The container state fields that Wait and WaitUntilHealthy consult. -/
structure ContainerStateM where
  running : Bool
  status : String
  health : Option HealthStateM
deriving Repr, DecidableEq

/-- Result of a ContainerInspect call: an engine error, or a response whose
State pointer may be nil. -/
inductive InspectResultM
  | err (msg : String)
  | ok (state : Option ContainerStateM)
deriving Repr, DecidableEq

/-- captureContainerState (part_009 lines 138-149): best-effort inspection of
the final container state; a nil client or empty id skips the engine call,
and an inspect error or nil state yields nil. Returns the state and the
engine calls issued. -/
def captureContainerState (dcNil : Bool) (containerID : String)
    (inspect : InspectResultM) : Option ContainerStateM × List EngineCall :=
  if dcNil ∨ containerID = "" then (none, [])
  else
    match inspect with
    | .err _ => (none, [.containerInspect])
    | .ok none => (none, [.containerInspect])
    | .ok (some st) => (some st, [.containerInspect])

/-! ## Exit/error model (src/compose/errors.go) and the tail of Wait
(src/unnamed/part_009 lines 16-59) -/

/-- container.WaitResponse: exit status code plus an optional engine-side
error detail. -/
structure WaitResponseM where
  statusCode : Int
  error : Option String
deriving Repr, DecidableEq

/-- ExitError (errors.go lines 11-19): exit code, captured stderr snapshot,
and the last known container state (nil when inspect failed). -/
structure ExitError where
  code : Int
  stderr : String
  containerState : Option ContainerStateM
deriving Repr, DecidableEq

/-- ExitCode (errors.go line 40). -/
def ExitError.exitCode (e : ExitError) : Int := e.code

/-- The distinct error outcomes Wait can produce after the wait response. -/
inductive WaitError
  | ioErr (msg : String)
  | engineErr (msg : String)
  | exitErr (e : ExitError)
deriving Repr, DecidableEq

/-- waitFinish embeds the tail of Wait (part_009 lines 32-58): after the wait
response is in hand and I/O drain resolved, inspect the container state only
when the response carries no engine error and a non-zero code, force-remove
unconditionally, then convert the response into nil, an engine error, or an
ExitError carrying the captured stderr buffer. Returns the outcome and the
engine calls issued by this tail. -/
def waitFinish (waitResp : WaitResponseM) (ioErr : Option String)
    (dcNil : Bool) (containerID : String) (stderrBuf : String)
    (inspect : InspectResultM) : Option WaitError × List EngineCall :=
  match ioErr with
  | some msg => (some (.ioErr msg), [])
  | none =>
    let code := waitResp.statusCode
    let cap :=
      if waitResp.error = none ∧ code ≠ 0 then
        captureContainerState dcNil containerID inspect
      else (none, [])
    let trace := cap.2 ++ [.containerRemove]
    match waitResp.error with
    | some msg => (some (.engineErr msg), trace)
    | none =>
      if code ≠ 0 then
        (some (.exitErr ⟨code, stderrBuf, cap.1⟩), trace)
      else (none, trace)

/-- Claim C3: a wait response with no engine-side error and a non-zero status
code N makes Wait return an ExitError whose ExitCode() is N, carrying the
captured stderr bytes and the best-effort inspected container state; the
state inspection is issued only on that abnormal path and never on the
zero-exit path, and a zero status with no error yields a nil result (with
the removal still performed). -/
theorem claim_C3_wait_exit (resp : WaitResponseM) (stderrBuf id : String)
    (inspect : InspectResultM) (hid : id ≠ "") (herr : resp.error = none) :
    (resp.statusCode ≠ 0 →
      (waitFinish resp none false id stderrBuf inspect).1 =
        some (.exitErr ⟨resp.statusCode, stderrBuf,
          (captureContainerState false id inspect).1⟩) ∧
      (∀ e, (waitFinish resp none false id stderrBuf inspect).1 =
          some (.exitErr e) → e.exitCode = resp.statusCode ∧ e.stderr = stderrBuf) ∧
      (waitFinish resp none false id stderrBuf inspect).2 =
        [.containerInspect, .containerRemove]) ∧
    (resp.statusCode = 0 →
      (waitFinish resp none false id stderrBuf inspect).1 = none ∧
      (waitFinish resp none false id stderrBuf inspect).2 = [.containerRemove]) := by
  have hcap : (captureContainerState false id inspect).2 = [.containerInspect] := by
    unfold captureContainerState
    rw [if_neg (by simp [hid])]
    cases inspect with
    | err msg => rfl
    | ok st => cases st <;> rfl
  obtain ⟨sc, e⟩ := resp
  replace herr : e = none := herr
  subst herr
  have heval : waitFinish ⟨sc, none⟩ none false id stderrBuf inspect =
      if sc = 0 then (none, [.containerRemove])
      else (some (.exitErr ⟨sc, stderrBuf, (captureContainerState false id inspect).1⟩),
        (captureContainerState false id inspect).2 ++ [.containerRemove]) := by
    by_cases hc : sc = 0 <;> simp [waitFinish, hc]
  constructor
  · intro hcode
    replace hcode : ¬(sc = 0) := hcode
    rw [heval, if_neg hcode]
    refine ⟨rfl, ?_, by rw [hcap]; rfl⟩
    intro ex hex
    simp only [Option.some.injEq, WaitError.exitErr.injEq] at hex
    rw [← hex]
    exact ⟨rfl, rfl⟩
  · intro hcode
    replace hcode : sc = 0 := hcode
    rw [heval, if_pos hcode]
    exact ⟨rfl, rfl⟩

/-- Claim C3 witness: a container exiting 42 with captured stderr "boom"
yields an ExitError with ExitCode() = 42 and that stderr, after exactly one
inspect and one remove. -/
theorem claim_C3_wait_exit_witness :
    (waitFinish ⟨42, none⟩ none false "cid" "boom"
        (.ok (some ⟨false, "exited", none⟩))).1 =
      some (.exitErr ⟨42, "boom", some ⟨false, "exited", none⟩⟩) := by
  have h := claim_C3_wait_exit ⟨42, none⟩ "boom" "cid"
    (.ok (some ⟨false, "exited", none⟩)) (by decide) rfl
  have h2 := (h.1 (by decide)).1
  rw [h2]
  rfl

/-! ## The waitForExit select loop (src/unnamed/part_009 lines 185-221) -/

/-- One select-arm firing in the waitForExit loop: caller-context done,
signal-context done, a value on the wait-response channel, a value delivered
on the wait-error channel, or the wait-error channel being closed. -/
inductive WaitEvent
  | ctxDone
  | sigDone
  | resp (r : WaitResponseM)
  | errRecv (e : Option String)
  | errClosed
deriving Repr, DecidableEq

/-- waitForExit (part_009 lines 185-221) as a function of the sequence of
select-arm firings. The Bool arguments carry the loop state: whether the
errCh select case is still enabled (errCh not yet set to nil) and whether
the once-guarded stopContainer has already fired; stopFails feeds the
stopAndKill escalation. An errRecv or errClosed firing while the channel is
disabled cannot occur (a nil channel never fires) and is a no-op. The result
is none when the event list ends with the loop still blocked, together with
the trace of engine calls issued. -/
def waitForExit (events : List WaitEvent) (stopFails : Bool)
    (errChEnabled : Bool) (stopFired : Bool) :
    Option (Except String WaitResponseM) × List EngineCall :=
  match events with
  | [] => (none, [])
  | e :: rest =>
    match e with
    | .ctxDone =>
      let calls := if stopFired then [] else stopAndKill stopFails
      let r := waitForExit rest stopFails errChEnabled true
      (r.1, calls ++ r.2)
    | .sigDone =>
      let calls := if stopFired then [] else stopAndKill stopFails
      let r := waitForExit rest stopFails errChEnabled true
      (r.1, calls ++ r.2)
    | .resp r => (some (.ok r), [])
    | .errRecv err =>
      if errChEnabled then
        match err with
        | some msg => (some (.error msg), [.containerRemove])
        | none => waitForExit rest stopFails errChEnabled stopFired
      else waitForExit rest stopFails errChEnabled stopFired
    | .errClosed =>
      if errChEnabled then waitForExit rest stopFails false stopFired
      else waitForExit rest stopFails errChEnabled stopFired

/-- Claim C4: in waitForExit, a non-nil error received on the enabled
wait-error channel forces an immediate container removal and returns that
error; a closed error channel permanently disables that select case (so the
loop does not spin: further error-channel firings are impossible no-ops),
and a wait response arriving after any non-terminating sequence of firings
is still returned. -/
theorem claim_C4_waitForExit :
    (∀ (msg : String) (rest : List WaitEvent) (sf st : Bool),
      waitForExit (.errRecv (some msg) :: rest) sf true st =
        (some (.error msg), [.containerRemove])) ∧
    (∀ (rest : List WaitEvent) (sf st : Bool),
      waitForExit (.errClosed :: rest) sf true st =
        waitForExit rest sf false st) ∧
    (∀ (e : Option String) (rest : List WaitEvent) (sf st : Bool),
      waitForExit (.errRecv e :: rest) sf false st =
        waitForExit rest sf false st) ∧
    (∀ (rest : List WaitEvent) (sf st : Bool),
      waitForExit (.errClosed :: rest) sf false st =
        waitForExit rest sf false st) ∧
    (∀ (events : List WaitEvent) (sf en st : Bool) (r : WaitResponseM),
      (waitForExit events sf en st).1 = none →
      (waitForExit (events ++ [.resp r]) sf en st).1 = some (.ok r)) := by
  refine ⟨fun msg rest sf st => rfl, fun rest sf st => rfl,
    fun e rest sf st => rfl, fun rest sf st => rfl, ?_⟩
  intro events
  induction events with
  | nil =>
    intro sf en st r _
    rfl
  | cons e rest ih =>
    intro sf en st r hnone
    cases e with
    | ctxDone =>
      rw [List.cons_append]
      show ((waitForExit (rest ++ [.resp r]) sf en true).1, _).1 = _
      have hn : (waitForExit rest sf en true).1 = none := hnone
      exact ih sf en true r hn
    | sigDone =>
      rw [List.cons_append]
      show ((waitForExit (rest ++ [.resp r]) sf en true).1, _).1 = _
      have hn : (waitForExit rest sf en true).1 = none := hnone
      exact ih sf en true r hn
    | resp r' =>
      exact absurd hnone (by simp [waitForExit])
    | errRecv err =>
      rw [List.cons_append]
      by_cases hen : en = true
      · subst hen
        cases err with
        | some msg => exact absurd hnone (by simp [waitForExit])
        | none =>
          show (waitForExit (rest ++ [.resp r]) sf true st).1 = _
          exact ih sf true st r hnone
      · have hen' : en = false := by
          cases en
          · rfl
          · exact absurd rfl hen
        subst hen'
        show (waitForExit (rest ++ [.resp r]) sf false st).1 = _
        exact ih sf false st r hnone
    | errClosed =>
      rw [List.cons_append]
      by_cases hen : en = true
      · subst hen
        show (waitForExit (rest ++ [.resp r]) sf false st).1 = _
        exact ih sf false st r hnone
      · have hen' : en = false := by
          cases en
          · rfl
          · exact absurd rfl hen
        subst hen'
        show (waitForExit (rest ++ [.resp r]) sf false st).1 = _
        exact ih sf false st r hnone

/-- Claim C4 witness: after the error channel closes and a cancellation
firing, a status-0 wait response arriving later is still returned (the
scenario of TestWaitForExit_ClosedErrChStillWaitsForResp). -/
theorem claim_C4_waitForExit_witness :
    (waitForExit ([.errClosed, .ctxDone] ++ [.resp ⟨0, none⟩]) false true false).1 =
      some (.ok ⟨0, none⟩) :=
  claim_C4_waitForExit.2.2.2.2 [.errClosed, .ctxDone] false true false ⟨0, none⟩ rfl

/-! ## WaitUntilHealthy (src/unnamed/part_009 lines 67-136) -/

/-- healthStatus (part_009 lines 100-105). -/
inductive HealthStatusM
  | pending
  | healthy
deriving Repr, DecidableEq

/-- inspectHealthStatus (part_009 lines 107-136): classify one inspection
into healthy, pending, or an error (inspect failure, nil state, container
not running, no healthcheck in the state, or an unhealthy report). -/
def inspectHealthStatus (r : InspectResultM) : Except String HealthStatusM :=
  match r with
  | .err msg => .error msg
  | .ok none => .error "compose: container state unavailable"
  | .ok (some st) =>
    if st.running = false then
      .error ("compose: container stopped (status=" ++ st.status ++ ")")
    else
      match st.health with
      | none => .error "compose: container has no healthcheck"
      | some h =>
        if h.status = "healthy" then .ok .healthy
        else if h.status = "unhealthy" then
          .error "compose: container became unhealthy"
        else .ok .pending

/-- One poll round of the WaitUntilHealthy loop: the inspection outcome and
whether the caller's context is done when the post-inspection select runs. -/
structure PollRound where
  inspect : InspectResultM
  ctxDoneAfter : Bool
deriving Repr, DecidableEq

/-- The outcomes WaitUntilHealthy can produce. -/
inductive HealthOutcome
  | ok
  | err (msg : String)
  | ctxErr
deriving Repr, DecidableEq

/-- The poll loop of WaitUntilHealthy (part_009 lines 84-97) over a finite
schedule of rounds; the first component is none when the schedule ends with
the loop still polling, and the second counts the ContainerInspect calls
issued. -/
def healthPollLoop : List PollRound → Option HealthOutcome × Nat
  | [] => (none, 0)
  | round :: rest =>
    match inspectHealthStatus round.inspect with
    | .error msg => (some (.err msg), 1)
    | .ok .healthy => (some .ok, 1)
    | .ok .pending =>
      if round.ctxDoneAfter then (some .ctxErr, 1)
      else
        let r := healthPollLoop rest
        (r.1, 1 + r.2)

/-- WaitUntilHealthy (part_009 lines 67-98): the load-error check, then the
hard requirement of a declared health-check, then the wait-state snapshot,
then the 500ms poll loop. healthCheckNil is true when the service descriptor
declares no health-check. -/
def WaitUntilHealthy (loadErr : Option String) (healthCheckNil : Bool)
    (snapshot : Except String Unit) (rounds : List PollRound) :
    Option HealthOutcome × Nat :=
  match loadErr with
  | some msg => (some (.err msg), 0)
  | none =>
    if healthCheckNil then
      (some (.err "compose: healthcheck is not defined for this service"), 0)
    else
      match snapshot with
      | .error msg => (some (.err msg), 0)
      | .ok _ => healthPollLoop rounds

/-- Claim C7: with no declared health-check, WaitUntilHealthy returns an
error immediately and issues zero inspect calls, whatever the poll schedule
(there is no absence-means-healthy fallback); with a declared health-check,
the poll loop errors as soon as the container stops running or reports
unhealthy, and returns the context error when the caller's context is done
while still pending. -/
theorem claim_C7_waitUntilHealthy (loadErr : Option String)
    (snapshot : Except String Unit) (rounds rest : List PollRound)
    (st : ContainerStateM) (d : Bool) :
    (∃ msg, (WaitUntilHealthy loadErr true snapshot rounds).1 = some (.err msg)) ∧
    (WaitUntilHealthy loadErr true snapshot rounds).2 = 0 ∧
    (st.running = false →
      ∃ msg, healthPollLoop (⟨.ok (some st), d⟩ :: rest) = (some (.err msg), 1)) ∧
    (st.running = true → st.health = some ⟨"unhealthy"⟩ →
      healthPollLoop (⟨.ok (some st), d⟩ :: rest) =
        (some (.err "compose: container became unhealthy"), 1)) ∧
    (st.running = true → st.health = some ⟨"starting"⟩ →
      healthPollLoop (⟨.ok (some st), true⟩ :: rest) = (some .ctxErr, 1)) := by
  refine ⟨?_, ?_, ?_, ?_, ?_⟩
  · cases loadErr with
    | some msg => exact ⟨msg, rfl⟩
    | none =>
      exact ⟨"compose: healthcheck is not defined for this service", rfl⟩
  · cases loadErr with
    | some msg => rfl
    | none => rfl
  · intro hrun
    refine ⟨"compose: container stopped (status=" ++ st.status ++ ")", ?_⟩
    simp [healthPollLoop, inspectHealthStatus, hrun]
  · intro hrun hh
    simp [healthPollLoop, inspectHealthStatus, hrun, hh]
  · intro hrun hh
    simp [healthPollLoop, inspectHealthStatus, hrun, hh]

/-- Claim C7 witness: a descriptor without a health-check errors with zero
inspects; a running container reporting "unhealthy" errors on that round. -/
theorem claim_C7_waitUntilHealthy_witness :
    (WaitUntilHealthy none true (.ok ()) [⟨.ok none, false⟩]).2 = 0 ∧
    healthPollLoop [⟨.ok (some ⟨true, "running", some ⟨"unhealthy"⟩⟩), false⟩] =
      (some (.err "compose: container became unhealthy"), 1) := by
  have h := claim_C7_waitUntilHealthy none (.ok ()) [⟨.ok none, false⟩] []
    ⟨true, "running", some ⟨"unhealthy"⟩⟩ false
  exact ⟨h.2.1, h.2.2.2.1 rfl rfl⟩

/-! ## Idempotent ensure-exists for networks and volumes
(src/compose/docker_client.go lines 128-173, 359-392, 425-438) -/

/-- Result of an engine create call. -/
inductive CreateResultM
  | ok
  | alreadyExists
  | otherErr (msg : String)
deriving Repr, DecidableEq

/-- The fields of the looked-up network spec that ensureNetworks consults:
whether the network is declared at the project's top level and, if so, its
external flag (an undeclared key has the zero value, declared = false). -/
structure NetworkSpecM where
  declared : Bool
  external : Bool
deriving Repr, DecidableEq

/-- One iteration of the ensureNetworks loop body (docker_client.go lines
137-171): a declared-external network is skipped with no engine call;
otherwise the name is listed, an existing network is skipped, and a create
whose failure is "already exists" is absorbed as success. listResult and
createResult give the engine's per-name answers. -/
def ensureNetworkStep (netName : String) (spec : NetworkSpecM)
    (listResult : String → Except String Bool)
    (createResult : String → CreateResultM) : Option String × List EngineCall :=
  if spec.declared && spec.external then (none, [])
  else
    match listResult netName with
    | .error msg => (some msg, [.networkList netName])
    | .ok present =>
      if present then (none, [.networkList netName])
      else
        match createResult netName with
        | .ok => (none, [.networkList netName, .networkCreate netName])
        | .alreadyExists => (none, [.networkList netName, .networkCreate netName])
        | .otherErr msg =>
          (some ("failed to create network " ++ netName ++ ": " ++ msg),
            [.networkList netName, .networkCreate netName])

/-- ensureNetworks (docker_client.go lines 128-173): run the loop body over
every endpoint network name, short-circuiting on the first error. -/
def ensureNetworks (entries : List (String × NetworkSpecM))
    (listResult : String → Except String Bool)
    (createResult : String → CreateResultM) : Option String × List EngineCall :=
  match entries with
  | [] => (none, [])
  | (netName, spec) :: rest =>
    let step := ensureNetworkStep netName spec listResult createResult
    match step.1 with
    | some msg => (some msg, step.2)
    | none =>
      let r := ensureNetworks rest listResult createResult
      (r.1, step.2 ++ r.2)

/-- createVolumeIdempotent (docker_client.go lines 425-438): an engine create
failure whose cause is "already exists" is absorbed and reported as success. -/
def createVolumeIdempotent (name : String) (r : CreateResultM) : Option String :=
  match r with
  | .ok => none
  | .alreadyExists => none
  | .otherErr msg => some ("failed to create volume " ++ name ++ ": " ++ msg)

/-- A deterministic volume engine: the list of existing volume names.
Creating an existing name fails with "already exists"; creating a fresh name
succeeds and records it (the VolumeCreate semantics the idempotent ensure
path is written against). -/
def volumeCreateEngine (existing : List String) (name : String) :
    CreateResultM × List String :=
  if name ∈ existing then (.alreadyExists, existing) else (.ok, name :: existing)

/-- The qualified name under which a top-level volume entry is created. -/
def resolvedVolumeNameOf (projectName : String)
    (p : String × ResolveNames.VolumeCfg) : String :=
  ResolveNames.resolveResourceName projectName p.1 p.2.name p.2.external

/-- ensureProjectVolumes (docker_client.go lines 359-392) over the
deterministic volume engine: an external volume is skipped entirely (never
created); any other is created idempotently under its resolved name,
short-circuiting on a non-absorbed error. Returns the error outcome, the
engine-call trace, and the updated engine state. -/
def ensureProjectVolumes (projectName : String)
    (vols : List (String × ResolveNames.VolumeCfg)) (existing : List String) :
    Option String × List EngineCall × List String :=
  match vols with
  | [] => (none, [], existing)
  | (volName, cfg) :: rest =>
    if cfg.external then ensureProjectVolumes projectName rest existing
    else
      let resolved := resolvedVolumeNameOf projectName (volName, cfg)
      let cr := volumeCreateEngine existing resolved
      match createVolumeIdempotent resolved cr.1 with
      | some msg => (some msg, [.volumeCreate resolved], cr.2)
      | none =>
        let r := ensureProjectVolumes projectName rest cr.2
        (r.1, .volumeCreate resolved :: r.2.1, r.2.2)

theorem ensureNetworkStep_create_mem (netName : String) (spec : NetworkSpecM)
    (lr : String → Except String Bool) (cr : String → CreateResultM) (n : String)
    (h : EngineCall.networkCreate n ∈ (ensureNetworkStep netName spec lr cr).2) :
    n = netName ∧ ¬(spec.declared && spec.external) = true := by
  unfold ensureNetworkStep at h
  by_cases hext : (spec.declared && spec.external) = true
  · rw [if_pos hext] at h
    simp at h
  · rw [if_neg hext] at h
    refine ⟨?_, hext⟩
    cases hl : lr netName with
    | error msg => rw [hl] at h; simp at h
    | ok present =>
      rw [hl] at h
      dsimp only at h
      by_cases hp : present = true
      · rw [if_pos hp] at h; simp at h
      · rw [if_neg hp] at h
        cases hc : cr netName with
        | ok => rw [hc] at h; dsimp only at h; simpa using h
        | alreadyExists => rw [hc] at h; dsimp only at h; simpa using h
        | otherErr msg => rw [hc] at h; dsimp only at h; simpa using h

theorem subset_volumeCreateEngine (existing : List String) (name : String) :
    existing ⊆ (volumeCreateEngine existing name).2 := by
  unfold volumeCreateEngine
  by_cases h : name ∈ existing
  · rw [if_pos h]
    exact fun a ha => ha
  · rw [if_neg h]
    exact fun a ha => List.mem_cons_of_mem _ ha

theorem mem_volumeCreateEngine (existing : List String) (name : String) :
    name ∈ (volumeCreateEngine existing name).2 := by
  unfold volumeCreateEngine
  by_cases h : name ∈ existing
  · rw [if_pos h]; exact h
  · rw [if_neg h]; exact List.mem_cons_self _ _

theorem createVolumeIdempotent_engine (existing : List String) (name : String) :
    createVolumeIdempotent name (volumeCreateEngine existing name).1 = none := by
  unfold volumeCreateEngine
  by_cases h : name ∈ existing
  · rw [if_pos h]; rfl
  · rw [if_neg h]; rfl

theorem ensureProjectVolumes_cons_ext (pn volName : String)
    (cfg : ResolveNames.VolumeCfg) (rest : List (String × ResolveNames.VolumeCfg))
    (ex : List String) (hext : cfg.external = true) :
    ensureProjectVolumes pn ((volName, cfg) :: rest) ex =
      ensureProjectVolumes pn rest ex := by
  simp only [ensureProjectVolumes]
  rw [if_pos hext]

theorem ensureProjectVolumes_cons_nonext (pn volName : String)
    (cfg : ResolveNames.VolumeCfg) (rest : List (String × ResolveNames.VolumeCfg))
    (ex : List String) (hext : cfg.external = false) :
    ensureProjectVolumes pn ((volName, cfg) :: rest) ex =
      ((ensureProjectVolumes pn rest
          (volumeCreateEngine ex (resolvedVolumeNameOf pn (volName, cfg))).2).1,
        .volumeCreate (resolvedVolumeNameOf pn (volName, cfg)) ::
          (ensureProjectVolumes pn rest
            (volumeCreateEngine ex (resolvedVolumeNameOf pn (volName, cfg))).2).2.1,
        (ensureProjectVolumes pn rest
          (volumeCreateEngine ex (resolvedVolumeNameOf pn (volName, cfg))).2).2.2) := by
  simp only [ensureProjectVolumes]
  rw [if_neg (by simp [hext]), createVolumeIdempotent_engine]

theorem ensureProjectVolumes_subset (pn : String)
    (vols : List (String × ResolveNames.VolumeCfg)) (ex : List String) :
    ex ⊆ (ensureProjectVolumes pn vols ex).2.2 := by
  induction vols generalizing ex with
  | nil => exact fun a ha => ha
  | cons p rest ih =>
    obtain ⟨volName, cfg⟩ := p
    cases hext : cfg.external with
    | true =>
      rw [ensureProjectVolumes_cons_ext pn volName cfg rest ex hext]
      exact ih ex
    | false =>
      rw [ensureProjectVolumes_cons_nonext pn volName cfg rest ex hext]
      exact fun a ha =>
        ih _ (subset_volumeCreateEngine ex (resolvedVolumeNameOf pn (volName, cfg)) ha)

theorem ensureProjectVolumes_mem (pn : String)
    (vols : List (String × ResolveNames.VolumeCfg)) (ex : List String)
    (p : String × ResolveNames.VolumeCfg) (hp : p ∈ vols)
    (hext : p.2.external = false) :
    resolvedVolumeNameOf pn p ∈ (ensureProjectVolumes pn vols ex).2.2 := by
  induction vols generalizing ex with
  | nil => simp at hp
  | cons q rest ih =>
    obtain ⟨volName, cfg⟩ := q
    rcases List.mem_cons.mp hp with hq | hq
    · subst hq
      rw [ensureProjectVolumes_cons_nonext pn volName cfg rest ex hext]
      exact ensureProjectVolumes_subset pn rest _
        (mem_volumeCreateEngine ex (resolvedVolumeNameOf pn (volName, cfg)))
    · cases hcf : cfg.external with
      | true =>
        rw [ensureProjectVolumes_cons_ext pn volName cfg rest ex hcf]
        exact ih ex hq
      | false =>
        rw [ensureProjectVolumes_cons_nonext pn volName cfg rest ex hcf]
        exact ih _ hq

theorem ensureProjectVolumes_saturated (pn : String)
    (vols : List (String × ResolveNames.VolumeCfg)) (ex : List String)
    (hsat : ∀ p ∈ vols, p.2.external = false → resolvedVolumeNameOf pn p ∈ ex) :
    (ensureProjectVolumes pn vols ex).1 = none ∧
    (ensureProjectVolumes pn vols ex).2.2 = ex := by
  induction vols with
  | nil => exact ⟨rfl, rfl⟩
  | cons q rest ih =>
    obtain ⟨volName, cfg⟩ := q
    cases hcf : cfg.external with
    | true =>
      rw [ensureProjectVolumes_cons_ext pn volName cfg rest ex hcf]
      exact ih (fun p hp he => hsat p (List.mem_cons_of_mem _ hp) he)
    | false =>
      rw [ensureProjectVolumes_cons_nonext pn volName cfg rest ex hcf]
      have hmem : resolvedVolumeNameOf pn (volName, cfg) ∈ ex :=
        hsat (volName, cfg) (List.mem_cons_self _ _) hcf
      have heng : volumeCreateEngine ex (resolvedVolumeNameOf pn (volName, cfg)) =
          (.alreadyExists, ex) := by
        unfold volumeCreateEngine
        rw [if_pos hmem]
      rw [heng]
      exact ih (fun p hp he => hsat p (List.mem_cons_of_mem _ hp) he)

theorem ensureProjectVolumes_create_mem (pn : String)
    (vols : List (String × ResolveNames.VolumeCfg)) (ex : List String) (n : String)
    (h : EngineCall.volumeCreate n ∈ (ensureProjectVolumes pn vols ex).2.1) :
    ∃ p ∈ vols, p.2.external = false ∧ n = resolvedVolumeNameOf pn p := by
  induction vols generalizing ex with
  | nil => simp [ensureProjectVolumes] at h
  | cons q rest ih =>
    obtain ⟨volName, cfg⟩ := q
    cases hcf : cfg.external with
    | true =>
      rw [ensureProjectVolumes_cons_ext pn volName cfg rest ex hcf] at h
      obtain ⟨p, hp, hpe, hpn⟩ := ih ex h
      exact ⟨p, List.mem_cons_of_mem _ hp, hpe, hpn⟩
    | false =>
      rw [ensureProjectVolumes_cons_nonext pn volName cfg rest ex hcf] at h
      rcases List.mem_cons.mp h with hh | hh
      · exact ⟨(volName, cfg), List.mem_cons_self _ _, hcf,
          EngineCall.volumeCreate.inj hh⟩
      · obtain ⟨p, hp, hpe, hpn⟩ := ih _ hh
        exact ⟨p, List.mem_cons_of_mem _ hp, hpe, hpn⟩

/-- Claim C8: the ensure-exists paths never create declared-external
resources (every network/volume create call in the trace stems from a
non-external entry); a create failure whose cause is "already exists" is
absorbed as success, both in the network loop and in
createVolumeIdempotent; and ensuring the same volumes twice leaves the
second run error-free with the engine state unchanged. -/
theorem claim_C8_ensure_exists :
    (∀ (entries : List (String × NetworkSpecM))
        (lr : String → Except String Bool) (cr : String → CreateResultM)
        (n : String),
      EngineCall.networkCreate n ∈ (ensureNetworks entries lr cr).2 →
      ∃ p ∈ entries, p.1 = n ∧ ¬(p.2.declared && p.2.external) = true) ∧
    (∀ (name : String) (spec : NetworkSpecM) (rest : List (String × NetworkSpecM))
        (lr : String → Except String Bool) (cr : String → CreateResultM),
      ¬(spec.declared && spec.external) = true →
      lr name = .ok false → cr name = .alreadyExists →
      ensureNetworks ((name, spec) :: rest) lr cr =
        ((ensureNetworks rest lr cr).1,
          .networkList name :: .networkCreate name ::
            (ensureNetworks rest lr cr).2)) ∧
    (∀ name : String, createVolumeIdempotent name .alreadyExists = none) ∧
    (∀ (pn : String) (vols : List (String × ResolveNames.VolumeCfg))
        (ex : List String) (n : String),
      EngineCall.volumeCreate n ∈ (ensureProjectVolumes pn vols ex).2.1 →
      ∃ p ∈ vols, p.2.external = false ∧ n = resolvedVolumeNameOf pn p) ∧
    (∀ (pn : String) (vols : List (String × ResolveNames.VolumeCfg))
        (ex : List String),
      (ensureProjectVolumes pn vols (ensureProjectVolumes pn vols ex).2.2).1 =
        none ∧
      (ensureProjectVolumes pn vols (ensureProjectVolumes pn vols ex).2.2).2.2 =
        (ensureProjectVolumes pn vols ex).2.2) := by
  refine ⟨?_, ?_, fun name => rfl, ?_, ?_⟩
  · intro entries lr cr
    induction entries with
    | nil => intro n h; simp [ensureNetworks] at h
    | cons q rest ih =>
      obtain ⟨netName, spec⟩ := q
      intro n h
      simp only [ensureNetworks] at h
      cases hs : (ensureNetworkStep netName spec lr cr).1 with
      | some msg =>
        rw [hs] at h
        obtain ⟨hn, hne⟩ := ensureNetworkStep_create_mem netName spec lr cr n h
        exact ⟨(netName, spec), List.mem_cons_self _ _, hn.symm, hne⟩
      | none =>
        rw [hs] at h
        rcases List.mem_append.mp h with hh | hh
        · obtain ⟨hn, hne⟩ := ensureNetworkStep_create_mem netName spec lr cr n hh
          exact ⟨(netName, spec), List.mem_cons_self _ _, hn.symm, hne⟩
        · obtain ⟨p, hp, hpn, hpe⟩ := ih n hh
          exact ⟨p, List.mem_cons_of_mem _ hp, hpn, hpe⟩
  · intro name spec rest lr cr hext hlr hcr
    have hstep : ensureNetworkStep name spec lr cr =
        (none, [.networkList name, .networkCreate name]) := by
      unfold ensureNetworkStep
      rw [if_neg hext, hlr, hcr]
      simp
    conv_lhs => rw [ensureNetworks]
    rw [hstep]
    rfl
  · intro pn vols ex n h
    exact ensureProjectVolumes_create_mem pn vols ex n h
  · intro pn vols ex
    exact ensureProjectVolumes_saturated pn vols _
      (fun p hp he => ensureProjectVolumes_mem pn vols ex p hp he)

/-- Claim C8 witness: a declared-external volume beside a normal one: only
the normal one is created; running the ensure a second time returns nil and
creates nothing new; the "already exists" outcome is absorbed. -/
theorem claim_C8_ensure_exists_witness :
    createVolumeIdempotent "myproj_db_data" .alreadyExists = none ∧
    (ensureProjectVolumes "myproj"
      [("db_data", ⟨"", false⟩), ("ext", ⟨"", true⟩)]
      ["myproj_db_data"]).1 = none := by
  constructor
  · exact claim_C8_ensure_exists.2.2.1 "myproj_db_data"
  · have h := claim_C8_ensure_exists.2.2.2.2 "myproj"
      [("db_data", ⟨"", false⟩), ("ext", ⟨"", true⟩)] []
    have hfirst : (ensureProjectVolumes "myproj"
        [("db_data", ⟨"", false⟩), ("ext", ⟨"", true⟩)] []).2.2 =
        ["myproj_db_data"] := by decide
    rw [hfirst] at h
    exact h.1

/-! ## Output and CombinedOutput (src/compose/cmd_docker.go lines 234-274) -/

/-- The error Run can produce, as seen by Output/CombinedOutput: a typed
exit error or any other error. -/
inductive RunErrM
  | exit (e : ExitError)
  | other (msg : String)
deriving Repr, DecidableEq

/-- How a run ends: clean, a non-zero exit (with the code and the
best-effort inspected state), or another failure. -/
inductive RunEnd
  | clean
  | exit (code : Int) (state : Option ContainerStateM)
  | fail (msg : String)
deriving Repr, DecidableEq

/-- The error Run returns for a given ending, given whether stderr capture
was enabled: on a non-zero exit, Wait fills ExitError.Stderr from the
capture buffer, which holds the run's stderr bytes exactly when capture was
enabled (normalizedWriters tees stderr through the buffer only then, and
resets it otherwise). -/
def runResult (ending : RunEnd) (captureStderr : Bool) (errBytes : String) :
    Option RunErrM :=
  match ending with
  | .clean => none
  | .exit code state =>
    some (.exit ⟨code, if captureStderr then errBytes else "", state⟩)
  | .fail msg => some (.other msg)

/-- The errors Output/CombinedOutput surface: a synchronous usage error or
the run's own error. -/
inductive CmdError
  | usage (msg : String)
  | run (e : RunErrM)
deriving Repr, DecidableEq

/-- What an Output/CombinedOutput invocation produced: the returned bytes
and error, whether the run was performed at all, and whether stderr capture
was enabled for it. -/
structure OutputResult where
  bytes : String
  err : Option CmdError
  ran : Bool
  captured : Bool
deriving Repr, DecidableEq

/-- Output (cmd_docker.go lines 234-260): reject when the caller already set
Stdout; otherwise wire an internal stdout buffer, and when Stderr is unset
also wire an internal stderr buffer with capture enabled; run; on an exit
error with capture, the captured stderr is placed in the error. outBytes and
errBytes are the bytes the container writes on each stream. -/
def Output (stdoutSet stderrSet : Bool) (ending : RunEnd)
    (outBytes errBytes : String) : OutputResult :=
  if stdoutSet then ⟨"", some (.usage "compose: Stdout already set"), false, false⟩
  else
    let capture := !stderrSet
    match runResult ending capture errBytes with
    | none => ⟨outBytes, none, true, capture⟩
    | some e => ⟨outBytes, some (.run e), true, capture⟩

/-- CombinedOutput (cmd_docker.go lines 262-274): reject when the caller
already set Stdout or Stderr; otherwise wire one combined buffer for both
sinks and run; stderr capture is not enabled. combinedBytes is the
interleaving the combined buffer receives. -/
def CombinedOutput (stdoutSet stderrSet : Bool) (ending : RunEnd)
    (combinedBytes errBytes : String) : OutputResult :=
  if stdoutSet || stderrSet then
    ⟨"", some (.usage "compose: Stdout or Stderr already set"), false, false⟩
  else
    match runResult ending false errBytes with
    | none => ⟨combinedBytes, none, true, false⟩
    | some e => ⟨combinedBytes, some (.run e), true, false⟩

theorem Output_not_set (sErr : Bool) (ending : RunEnd) (ob eb : String) :
    Output false sErr ending ob eb =
      match runResult ending (!sErr) eb with
      | none => ⟨ob, none, true, !sErr⟩
      | some e => ⟨ob, some (.run e), true, !sErr⟩ := by
  unfold Output
  rfl

theorem CombinedOutput_not_set (ending : RunEnd) (cb eb : String) :
    CombinedOutput false false ending cb eb =
      match runResult ending false eb with
      | none => ⟨cb, none, true, false⟩
      | some e => ⟨cb, some (.run e), true, false⟩ := by
  unfold CombinedOutput
  rfl

/-- Claim C9 counterexample: the claim says the non-rejecting path of
CombinedOutput enables stderr capture for exit-error enrichment, but the
code does not: a run with no caller-set sinks exiting 7 with stderr "boom"
yields an exit error whose captured stderr is empty, and the capture flag
stays off. -/
theorem claim_C9_counterexample :
    (CombinedOutput false false (.exit 7 none) "out-boom" "boom").err =
      some (.run (.exit ⟨7, "", none⟩)) ∧
    (CombinedOutput false false (.exit 7 none) "out-boom" "boom").captured =
      false ∧
    ("" : String) ≠ "boom" := by
  refine ⟨rfl, rfl, by decide⟩

/-- Claim C9 (amended): CombinedOutput rejects with a synchronous usage
error and does not run whenever the caller set either sink; Output rejects
when the standard-output sink is set; otherwise they wire internal buffers
and run, returning the captured bytes plus the run's error; Output (when the
caller set no stderr sink) enables stderr capture, so its exit errors carry
the captured stderr; CombinedOutput does not enable capture — its combined
buffer already receives stderr. -/
theorem claim_C9_output_combinedOutput (sOut sErr : Bool) (ending : RunEnd)
    (ob eb cb : String) :
    (sOut = true →
      (Output sOut sErr ending ob eb).ran = false ∧
      ∃ msg, (Output sOut sErr ending ob eb).err = some (.usage msg)) ∧
    ((sOut || sErr) = true →
      (CombinedOutput sOut sErr ending cb eb).ran = false ∧
      ∃ msg, (CombinedOutput sOut sErr ending cb eb).err = some (.usage msg)) ∧
    (sOut = false →
      (Output sOut sErr ending ob eb).ran = true ∧
      (Output sOut sErr ending ob eb).captured = !sErr ∧
      (Output sOut sErr ending ob eb).bytes = ob ∧
      (Output sOut sErr ending ob eb).err =
        (runResult ending (!sErr) eb).map .run) ∧
    (sOut = false → sErr = false →
      (CombinedOutput sOut sErr ending cb eb).ran = true ∧
      (CombinedOutput sOut sErr ending cb eb).captured = false ∧
      (CombinedOutput sOut sErr ending cb eb).bytes = cb ∧
      (CombinedOutput sOut sErr ending cb eb).err =
        (runResult ending false eb).map .run) ∧
    (∀ (code : Int) (state : Option ContainerStateM),
      (Output false false (.exit code state) ob eb).err =
        some (.run (.exit ⟨code, eb, state⟩))) := by
  refine ⟨?_, ?_, ?_, ?_, ?_⟩
  · intro hs
    subst hs
    exact ⟨rfl, "compose: Stdout already set", rfl⟩
  · intro hs
    unfold CombinedOutput
    rw [if_pos hs]
    exact ⟨rfl, "compose: Stdout or Stderr already set", rfl⟩
  · intro hs
    subst hs
    rw [Output_not_set]
    cases hr : runResult ending (!sErr) eb with
    | none => exact ⟨rfl, rfl, rfl, rfl⟩
    | some e => exact ⟨rfl, rfl, rfl, rfl⟩
  · intro hs he
    subst hs; subst he
    rw [CombinedOutput_not_set]
    cases hr : runResult ending false eb with
    | none => exact ⟨rfl, rfl, rfl, rfl⟩
    | some e => exact ⟨rfl, rfl, rfl, rfl⟩
  · intro code state
    rfl

/-- Claim C9 witness: with no caller-set sinks, Output of a run exiting 42
with stderr "oops" returns the stdout bytes and an exit error carrying the
captured stderr; with Stdout caller-set, CombinedOutput rejects without
running. -/
theorem claim_C9_output_combinedOutput_witness :
    (Output false false (.exit 42 none) "hello" "oops").err =
      some (.run (.exit ⟨42, "oops", none⟩)) ∧
    (CombinedOutput true false .clean "x" "y").ran = false := by
  have h := claim_C9_output_combinedOutput false false (.exit 42 none) "hello" "oops" "x"
  have h2 := claim_C9_output_combinedOutput true false .clean "hello" "oops" "x"
  exact ⟨h.2.2.2.2 42 none, (h2.2.1 rfl).1⟩

/-! ## The Start sequence (src/compose/cmd_docker.go lines 107-230) -/

/-- The events of one Start invocation, in program order: the engine-facing
steps plus the forwarder spawn and the blocking receive on the forwarder's
ready channel. -/
inductive StartEvent
  | imagePull
  | ensureNetworks
  | ensureVolumes
  | containerCreate
  | containerAttach
  | spawnForwarders (hasReader : Bool)
  | readyRecv
  | containerStart
  | containerWaitBegin
  | forceRemove
deriving Repr, DecidableEq

/-- The Cmd fields the Start control flow reads and writes. -/
structure CmdState where
  loadErr : Option String
  started : Bool
  buildSet : Bool
  image : String
  containerID : String
  attachSet : Bool
  waitChSet : Bool
deriving Repr, DecidableEq

/-- The outcomes of the engine-facing steps of one Start invocation. -/
structure StartOracle where
  clientErr : Option String
  pullErr : Option String
  mountsErr : Option String
  nameErr : Option String
  networking : Bool
  networksErr : Option String
  volumesErr : Option String
  createRes : Except String String
  attachErr : Option String
  attachHasReader : Bool
  startErr : Option String
deriving Repr

/-- Start (cmd_docker.go lines 126-230): the guard sequence (load error,
markStarted, build/image validation), the setup steps (client, pull, mounts,
name, networks when a networking config resolved, volumes), create, attach
(force-remove on failure), forwarder spawn, the blocking receive on the
ready channel, container start (force-remove on failure), and the
asynchronous wait registration. Returns the result, the updated Cmd state,
and the event trace. -/
def Start (st0 : CmdState) (o : StartOracle) :
    Except String Unit × CmdState × List StartEvent :=
  match st0.loadErr with
  | some msg => (.error msg, st0, [])
  | none =>
    match st0.started with
    | true => (.error "compose: already started", st0, [])
    | false =>
      let st := { st0 with started := true }
      if st.buildSet then
        (.error "compose: service.build is not supported (use a pre-built image)",
          st, [])
      else if st.image = "" then
        (.error "compose: service.image is required (build is out of scope)",
          st, [])
      else
        match o.clientErr with
        | some msg => (.error msg, st, [])
        | none =>
          match o.pullErr with
          | some msg => (.error msg, st, [.imagePull])
          | none =>
            match o.mountsErr with
            | some msg => (.error msg, st, [.imagePull])
            | none =>
              match o.nameErr with
              | some msg => (.error msg, st, [.imagePull])
              | none =>
                let netTrace :=
                  if o.networking then [StartEvent.ensureNetworks] else []
                match (if o.networking then o.networksErr else none) with
                | some msg => (.error msg, st, .imagePull :: netTrace)
                | none =>
                  match o.volumesErr with
                  | some msg =>
                    (.error msg, st, .imagePull :: (netTrace ++ [.ensureVolumes]))
                  | none =>
                    match o.createRes with
                    | .error msg =>
                      (.error msg, st,
                        .imagePull ::
                          (netTrace ++ [.ensureVolumes, .containerCreate]))
                    | .ok cid =>
                      let st := { st with containerID := cid }
                      match o.attachErr with
                      | some msg =>
                        (.error msg, st,
                          .imagePull ::
                            (netTrace ++ [.ensureVolumes, .containerCreate,
                              .containerAttach, .forceRemove]))
                      | none =>
                        let st := { st with attachSet := true }
                        match o.startErr with
                        | some msg =>
                          (.error msg, st,
                            .imagePull ::
                              (netTrace ++ [.ensureVolumes, .containerCreate,
                                .containerAttach,
                                .spawnForwarders o.attachHasReader, .readyRecv,
                                .containerStart, .forceRemove]))
                        | none =>
                          (.ok (), { st with waitChSet := true },
                            .imagePull ::
                              (netTrace ++ [.ensureVolumes, .containerCreate,
                                .containerAttach,
                                .spawnForwarders o.attachHasReader, .readyRecv,
                                .containerStart, .containerWaitBegin]))

theorem Start_loadErr (st : CmdState) (o : StartOracle) :
    ((Start st o).2.1).loadErr = st.loadErr := by
  simp only [Start]
  repeat' split
  all_goals rfl

theorem Start_state_started (st : CmdState) (o : StartOracle)
    (hload : st.loadErr = none) (hst : st.started = false) :
    ((Start st o).2.1).started = true := by
  simp only [Start, hload, hst]
  repeat' split
  all_goals rfl

/-- Claim C6 counterexample: a Cmd carrying a load error returns that load
error, not "compose: already started", on the second (and every) Start
call, so the claim as stated fails for such instances. -/
theorem claim_C6_counterexample :
    (Start ⟨some "compose-load: no compose file", false, false, "alpine", "",
        false, false⟩
      ⟨none, none, none, none, false, none, none, .ok "cid", none, true,
        none⟩).1 = .error "compose-load: no compose file" ∧
    (Start ((Start ⟨some "compose-load: no compose file", false, false,
          "alpine", "", false, false⟩
        ⟨none, none, none, none, false, none, none, .ok "cid", none, true,
          none⟩).2.1)
      ⟨none, none, none, none, false, none, none, .ok "cid", none, true,
        none⟩).1 = .error "compose-load: no compose file" ∧
    (Except.error "compose-load: no compose file" : Except String Unit) ≠
      .error "compose: already started" := by
  refine ⟨rfl, rfl, ?_⟩
  intro h
  exact absurd (Except.error.inj h) (by decide)

/-- Claim C6 (amended): for every Cmd without a pending load error, a Start
call on an already-started instance returns the usage error
"compose: already started" synchronously, with no engine event and no state
mutation; a first Start on an unstarted instance flips the started flag to
true (whatever the outcome), so the second and any later call errors that
way — the flag transitions false to true exactly once. -/
theorem claim_C6_double_start (st : CmdState) (o o2 : StartOracle)
    (hload : st.loadErr = none) :
    (st.started = true →
      Start st o = (.error "compose: already started", st, [])) ∧
    (st.started = false → ((Start st o).2.1).started = true) ∧
    (st.started = false →
      Start ((Start st o).2.1) o2 =
        (.error "compose: already started", (Start st o).2.1, [])) := by
  have ha : ∀ (s : CmdState) (oo : StartOracle), s.loadErr = none →
      s.started = true →
      Start s oo = (.error "compose: already started", s, []) := by
    intro s oo hl hs
    unfold Start
    rw [hl]
    dsimp only
    rw [hs]
  refine ⟨ha st o hload, ?_, ?_⟩
  · intro hs
    exact Start_state_started st o hload hs
  · intro hs
    have hl2 : ((Start st o).2.1).loadErr = none := by
      rw [Start_loadErr]
      exact hload
    exact ha _ o2 hl2 (Start_state_started st o hload hs)

/-- Claim C6 witness: a concrete unstarted Cmd whose second Start call
returns "compose: already started". -/
theorem claim_C6_double_start_witness :
    (Start ((Start ⟨none, false, false, "alpine", "", false, false⟩
        ⟨none, none, none, none, false, none, none, .ok "cid", none, true,
          none⟩).2.1)
      ⟨none, none, none, none, false, none, none, .ok "cid", none, true,
        none⟩).1 = .error "compose: already started" := by
  have h := claim_C6_double_start
    ⟨none, false, false, "alpine", "", false, false⟩
    ⟨none, none, none, none, false, none, none, .ok "cid", none, true, none⟩
    ⟨none, none, none, none, false, none, none, .ok "cid", none, true, none⟩
    rfl
  rw [h.2.2 rfl]

/-! ## The attach-before-start readiness handshake
(src/unnamed/part_005, startForwarding and readSignalReader) -/

/-- The handshake state between Start's main flow and the output-copy
forwarder after the attach call: Start's program counter (0 = attached,
about to call startForwarding; 1 = forwarder spawned, blocked receiving on
the ready channel; 2 = ready received; 3 = ContainerStart issued), whether
the attach stream carries a reader, whether the forwarder has attempted its
first read, and whether the ready channel has been closed. -/
structure HandshakeState where
  mainPC : Nat
  hasReader : Bool
  firstReadDone : Bool
  readyClosed : Bool
deriving Repr, DecidableEq

/-- The observable actions of the two threads in the handshake. -/
inductive HandshakeLabel
  | spawn
  | firstRead
  | readyRecv
  | startContainer
deriving Repr, DecidableEq

/-- The interleaving semantics of startForwarding and readSignalReader
(part_005 lines 141-192): startForwarding closes ready at once when the
attach response has no reader; the forwarder goroutine's first Read attempt
closes ready (the once.Do in readSignalReader.Read runs before the inner
read); Start's receive on the ready channel is enabled only once ready is
closed; the ContainerStart call follows that receive. -/
inductive HandshakeStep : HandshakeState → HandshakeLabel → HandshakeState → Prop
  | spawn (s : HandshakeState) (h : s.mainPC = 0) :
      HandshakeStep s .spawn
        { s with mainPC := 1, readyClosed := s.readyClosed || !s.hasReader }
  | firstRead (s : HandshakeState) (h1 : 1 ≤ s.mainPC) (h2 : s.hasReader = true)
      (h3 : s.firstReadDone = false) :
      HandshakeStep s .firstRead
        { s with firstReadDone := true, readyClosed := true }
  | readyRecv (s : HandshakeState) (h1 : s.mainPC = 1) (h2 : s.readyClosed = true) :
      HandshakeStep s .readyRecv { s with mainPC := 2 }
  | startContainer (s : HandshakeState) (h : s.mainPC = 2) :
      HandshakeStep s .startContainer { s with mainPC := 3 }

/-- Finite executions of the handshake under any interleaving. -/
inductive HandshakeExec : HandshakeState → List HandshakeLabel → HandshakeState → Prop
  | nil (s : HandshakeState) : HandshakeExec s [] s
  | cons {s s' s'' : HandshakeState} {l : HandshakeLabel}
      {tr : List HandshakeLabel} :
      HandshakeStep s l s' → HandshakeExec s' tr s'' →
      HandshakeExec s (l :: tr) s''

theorem handshake_spawn_before {s : HandshakeState} {tr : List HandshakeLabel}
    {sf : HandshakeState} (hexec : HandshakeExec s tr sf) :
    s.mainPC = 0 → ∀ tr₁ tr₂, tr = tr₁ ++ .startContainer :: tr₂ →
      HandshakeLabel.spawn ∈ tr₁ := by
  induction hexec with
  | nil =>
    intro _ tr₁ tr₂ h
    exact absurd h.symm (by simp)
  | cons hstep hrest ih =>
    intro h0 tr₁ tr₂ heq
    cases tr₁ with
    | nil =>
      simp only [List.nil_append, List.cons.injEq] at heq
      obtain ⟨hl, _⟩ := heq
      subst hl
      cases hstep with
      | startContainer h => rw [h0] at h; exact absurd h (by decide)
    | cons a tr₁' =>
      simp only [List.cons_append, List.cons.injEq] at heq
      obtain ⟨hl, htr⟩ := heq
      subst hl
      cases hstep with
      | spawn h => exact List.mem_cons_self _ _
      | firstRead h1 h2 h3 =>
        exact List.mem_cons_of_mem _ (ih h0 tr₁' tr₂ htr)
      | readyRecv h1 h2 => rw [h0] at h1; exact absurd h1 (by decide)
      | startContainer h => rw [h0] at h; exact absurd h (by decide)

theorem handshake_readyRecv_before {s : HandshakeState}
    {tr : List HandshakeLabel} {sf : HandshakeState}
    (hexec : HandshakeExec s tr sf) :
    s.mainPC ≤ 1 → ∀ tr₁ tr₂, tr = tr₁ ++ .startContainer :: tr₂ →
      HandshakeLabel.readyRecv ∈ tr₁ := by
  induction hexec with
  | nil =>
    intro _ tr₁ tr₂ h
    exact absurd h.symm (by simp)
  | cons hstep hrest ih =>
    intro h0 tr₁ tr₂ heq
    cases tr₁ with
    | nil =>
      simp only [List.nil_append, List.cons.injEq] at heq
      obtain ⟨hl, _⟩ := heq
      subst hl
      cases hstep with
      | startContainer h => rw [h] at h0; exact absurd h0 (by decide)
    | cons a tr₁' =>
      simp only [List.cons_append, List.cons.injEq] at heq
      obtain ⟨hl, htr⟩ := heq
      subst hl
      cases hstep with
      | spawn h =>
        exact List.mem_cons_of_mem _ (ih (Nat.le_refl 1) tr₁' tr₂ htr)
      | firstRead h1 h2 h3 =>
        exact List.mem_cons_of_mem _ (ih h0 tr₁' tr₂ htr)
      | readyRecv h1 h2 => exact List.mem_cons_self _ _
      | startContainer h => rw [h] at h0; exact absurd h0 (by decide)

theorem handshake_close_before {s : HandshakeState} {tr : List HandshakeLabel}
    {sf : HandshakeState} (hexec : HandshakeExec s tr sf) :
    s.readyClosed = false → s.mainPC ≤ 1 →
    ∀ tr₁ tr₂, tr = tr₁ ++ .startContainer :: tr₂ →
      HandshakeLabel.firstRead ∈ tr₁ ∨
        (HandshakeLabel.spawn ∈ tr₁ ∧ s.hasReader = false) := by
  induction hexec with
  | nil =>
    intro _ _ tr₁ tr₂ h
    exact absurd h.symm (by simp)
  | cons hstep hrest ih =>
    intro hrc h0 tr₁ tr₂ heq
    cases tr₁ with
    | nil =>
      simp only [List.nil_append, List.cons.injEq] at heq
      obtain ⟨hl, _⟩ := heq
      subst hl
      cases hstep with
      | startContainer h => rw [h] at h0; exact absurd h0 (by decide)
    | cons a tr₁' =>
      simp only [List.cons_append, List.cons.injEq] at heq
      obtain ⟨hl, htr⟩ := heq
      subst hl
      cases hstep with
      | spawn h =>
        rename_i s₀ s₂ tr₀
        cases hr : s₀.hasReader with
        | false =>
          exact Or.inr ⟨List.mem_cons_self _ _, rfl⟩
        | true =>
          rcases ih (by simp [hrc, hr]) (Nat.le_refl 1) tr₁' tr₂ htr
            with hf | ⟨_, hcontra⟩
          · exact Or.inl (List.mem_cons_of_mem _ hf)
          · have hfa : s₀.hasReader = false := hcontra
            rw [hr] at hfa
            exact absurd hfa (by decide)
      | firstRead h1 h2 h3 => exact Or.inl (List.mem_cons_self _ _)
      | readyRecv h1 h2 => rw [h2] at hrc; exact absurd hrc (by decide)
      | startContainer h => rw [h] at h0; exact absurd h0 (by decide)

/-- Claim C1: on every successful Start, the trace of events is exactly
pull, ensure-networks (when a networking config resolved), ensure-volumes,
create, attach, forwarder spawn, the blocking receive on the ready channel,
container start, wait registration — so the attach and the live forwarder
precede the ContainerStart call; and in every interleaving of the readiness
handshake, any ContainerStart is preceded by the forwarder spawn, by the
ready receive, and by the event that closed the ready channel — the
forwarder's first read attempt, or the spawn itself when the stream has no
reader. -/
theorem claim_C1_attach_before_start (st : CmdState) (o : StartOracle)
    (hok : (Start st o).1 = .ok ()) :
    (Start st o).2.2 =
      .imagePull ::
        ((if o.networking then [StartEvent.ensureNetworks] else []) ++
          [.ensureVolumes, .containerCreate, .containerAttach,
            .spawnForwarders o.attachHasReader, .readyRecv, .containerStart,
            .containerWaitBegin]) ∧
    (∀ (hasReader : Bool) (tr tr₁ tr₂ : List HandshakeLabel)
        (sf : HandshakeState),
      HandshakeExec ⟨0, hasReader, false, false⟩ tr sf →
      tr = tr₁ ++ .startContainer :: tr₂ →
      HandshakeLabel.spawn ∈ tr₁ ∧ HandshakeLabel.readyRecv ∈ tr₁ ∧
        (HandshakeLabel.firstRead ∈ tr₁ ∨
          (HandshakeLabel.spawn ∈ tr₁ ∧ hasReader = false))) := by
  constructor
  · have h1 : st.loadErr = none := by
      cases h : st.loadErr with
      | none => rfl
      | some m => simp [Start, h] at hok
    have h2 : st.started = false := by
      cases h : st.started with
      | false => rfl
      | true => simp [Start, h1, h] at hok
    have h3 : st.buildSet = false := by
      cases h : st.buildSet with
      | false => rfl
      | true => simp [Start, h1, h2, h] at hok
    have h4 : ¬(st.image = "") := by
      intro h
      simp [Start, h1, h2, h3, h] at hok
    have h5 : o.clientErr = none := by
      cases h : o.clientErr with
      | none => rfl
      | some m => simp [Start, h1, h2, h3, h4, h] at hok
    have h6 : o.pullErr = none := by
      cases h : o.pullErr with
      | none => rfl
      | some m => simp [Start, h1, h2, h3, h4, h5, h] at hok
    have h7 : o.mountsErr = none := by
      cases h : o.mountsErr with
      | none => rfl
      | some m => simp [Start, h1, h2, h3, h4, h5, h6, h] at hok
    have h8 : o.nameErr = none := by
      cases h : o.nameErr with
      | none => rfl
      | some m => simp [Start, h1, h2, h3, h4, h5, h6, h7, h] at hok
    have h9 : (if o.networking then o.networksErr else none) = none := by
      cases h : (if o.networking then o.networksErr else none) with
      | none => rfl
      | some m => simp [Start, h1, h2, h3, h4, h5, h6, h7, h8, h] at hok
    have h10 : o.volumesErr = none := by
      cases h : o.volumesErr with
      | none => rfl
      | some m => simp [Start, h1, h2, h3, h4, h5, h6, h7, h8, h9, h] at hok
    cases hc : o.createRes with
    | error m => simp [Start, h1, h2, h3, h4, h5, h6, h7, h8, h9, h10, hc] at hok
    | ok cid =>
      have h12 : o.attachErr = none := by
        cases h : o.attachErr with
        | none => rfl
        | some m =>
          simp [Start, h1, h2, h3, h4, h5, h6, h7, h8, h9, h10, hc, h] at hok
      have h13 : o.startErr = none := by
        cases h : o.startErr with
        | none => rfl
        | some m =>
          simp [Start, h1, h2, h3, h4, h5, h6, h7, h8, h9, h10, hc, h12, h]
            at hok
      simp [Start, h1, h2, h3, h4, h5, h6, h7, h8, h9, h10, hc, h12, h13]
  · intro hasReader tr tr₁ tr₂ sf hexec heq
    refine ⟨handshake_spawn_before hexec rfl tr₁ tr₂ heq,
      handshake_readyRecv_before hexec (Nat.zero_le 1) tr₁ tr₂ heq,
      handshake_close_before hexec rfl (Nat.zero_le 1) tr₁ tr₂ heq⟩

/-- Claim C1 witness: a concrete all-success Start produces the ordered
trace, and along the handshake run spawn, firstRead, readyRecv,
startContainer the close event precedes the start. -/
theorem claim_C1_attach_before_start_witness :
    (Start ⟨none, false, false, "alpine", "", false, false⟩
        ⟨none, none, none, none, true, none, none, .ok "cid", none, true,
          none⟩).2.2 =
      [.imagePull, .ensureNetworks, .ensureVolumes, .containerCreate,
        .containerAttach, .spawnForwarders true, .readyRecv, .containerStart,
        .containerWaitBegin] ∧
    (HandshakeLabel.firstRead ∈
        ([.spawn, .firstRead, .readyRecv] : List HandshakeLabel) ∨
      (HandshakeLabel.spawn ∈
          ([.spawn, .firstRead, .readyRecv] : List HandshakeLabel) ∧
        true = false)) := by
  have h := claim_C1_attach_before_start
    ⟨none, false, false, "alpine", "", false, false⟩
    ⟨none, none, none, none, true, none, none, .ok "cid", none, true, none⟩
    rfl
  have hexec : HandshakeExec ⟨0, true, false, false⟩
      [.spawn, .firstRead, .readyRecv, .startContainer] ⟨3, true, true, true⟩ := by
    refine .cons (.spawn _ rfl) (.cons (.firstRead _ (by decide) rfl rfl)
      (.cons (.readyRecv _ rfl rfl) (.cons (.startContainer _ rfl) (.nil _))))
  constructor
  · rw [h.1]
    rfl
  · exact (h.2 true [.spawn, .firstRead, .readyRecv, .startContainer]
      [.spawn, .firstRead, .readyRecv] [] ⟨3, true, true, true⟩ hexec rfl).2.2
